/-
  Verification development for the endless-pdf-conversions service.

  The repository contains four variants of the same Express service:
    - src/index.js, first segment  ("legacy"): POST /pdf/image-to-pdf and
      POST /pdf/pdf-to-image (pdf2pic + pLimit(2) + Promise.all).
    - src/index.js, second segment ("v1"/"v2"): POST /pdf/image-to-pdf,
      POST /pdf/v1/pdf-to-image (sequential pdf-to-img loop) and
      POST /pdf/v2/pdf-to-image/ (PDFium + pLimit(cpus-1), archive piped
      to the response before the page jobs run).
    - src/unnamed/part_000 ("part000"): POST /pdf/pdf-to-image with a
      sequential pdf-to-img loop and a try/finally cleanup block.
    - src/unnamed/part_001 ("part001"): POST /pdf/pdf-to-image that reads
      the output directory back and sorts filenames with a regex comparator.

  This file is a shallow embedding of those handlers.  External effects
  (multer staging, the renderer libraries, the filesystem, the HTTP
  response stream) are modelled as explicit inputs and as fields of a
  result record.  Concurrent completion of page jobs is modelled by an
  explicit completion schedule: a list of job indices in wall-clock
  completion order, ranging over permutations of the admission order.
-/
import Mathlib

/-! ## JavaScript string/number primitives used by the handlers -/

/-- Numeric value of a decimal digit character, as computed by the
JavaScript engine (code point minus 48). -/
def digitValCh (c : Char) : Nat := c.toNat - 48

/-- Value of a list of decimal digit characters, most significant first. -/
def digitsToNat (ds : List Char) : Nat := ds.foldl (fun a c => a * 10 + digitValCh c) 0

/-- Hexadecimal digit test, for the automatic 0x radix of parseInt. -/
def isHexDigitCh (c : Char) : Bool :=
  c.isDigit || ('a' ≤ c && c ≤ 'f') || ('A' ≤ c && c ≤ 'F')

/-- Numeric value of a hexadecimal digit character. -/
def hexValCh (c : Char) : Nat :=
  if c.isDigit then c.toNat - 48
  else if 'a' ≤ c && c ≤ 'f' then c.toNat - 87
  else c.toNat - 55

/-- Value of a list of hexadecimal digit characters, most significant first. -/
def hexToNat (ds : List Char) : Nat := ds.foldl (fun a c => a * 16 + hexValCh c) 0

/-- JavaScript parseInt(s) with no radix argument: skip leading whitespace,
optional sign, automatic radix 16 on a 0x/0X prefix, then the longest
run of digits; the result is NaN (modelled as none) when no digit follows. -/
def parseIntJs (s : String) : Option Int :=
  let cs := s.data.dropWhile Char.isWhitespace
  let signed : Bool × List Char :=
    match cs with
    | '-' :: r => (true, r)
    | '+' :: r => (false, r)
    | r => (false, r)
  let core : Option Nat :=
    match signed.2 with
    | '0' :: 'x' :: r =>
      let hs := r.takeWhile isHexDigitCh
      if hs.isEmpty then none else some (hexToNat hs)
    | '0' :: 'X' :: r =>
      let hs := r.takeWhile isHexDigitCh
      if hs.isEmpty then none else some (hexToNat hs)
    | r =>
      let ds := r.takeWhile Char.isDigit
      if ds.isEmpty then none else some (digitsToNat ds)
  core.map fun v => if signed.1 then -(v : Int) else (v : Int)

/-- JavaScript String.prototype.toLowerCase on the character sequence. -/
def toLowerJs (s : String) : String := String.mk (s.data.map Char.toLower)

/-- The format field parsing shared by every pdf-to-image handler:
(req.body.format || "png").toLowerCase().  A missing or empty field falls
back to "png"; any other value is lowercased and kept as given, with no
membership check against a list of recognized formats. -/
def parseFormat (field : Option String) : String :=
  match field with
  | none => "png"
  | some s => if s = "" then "png" else toLowerJs s

/-- The dpi field parsing: parseInt(req.body.dpi) || deflt.  A missing
field, a non-numeric field and a parsed value of 0 are falsy and fall back
to the default; every other parsed value (negative values included) is
kept.  The legacy handler uses deflt = 150, part_000 uses deflt = 2. -/
def parseDpi (deflt : Int) (field : Option String) : Int :=
  match field with
  | none => deflt
  | some s =>
    match parseIntJs s with
    | none => deflt
    | some v => if v = 0 then deflt else v

/-- Decimal printing of a natural number, one fuel step per digit,
least significant digit first. -/
def decReprAux : Nat → Nat → List Char
  | 0, _ => []
  | fuel + 1, n => if n = 0 then [] else Nat.digitChar (n % 10) :: decReprAux fuel (n / 10)

/-- JavaScript number-to-string conversion for the natural numbers the
handlers stringify (Date.now(), page numbers): ordinary base-10 printing. -/
def decRepr (n : Nat) : String :=
  if n = 0 then "0" else String.mk (decReprAux n n).reverse

/-- Recovery function for decimal printing: value of a least-significant-first
digit character list. -/
def valLE : List Char → Nat
  | [] => 0
  | c :: cs => digitValCh c + 10 * valLE cs

/-- JavaScript String.prototype.endsWith, used by the part_001 extension
filter: suffix test on the character sequence. -/
def endsWithJs (s suffix : String) : Bool := List.isSuffixOf suffix.data s.data

/-! ## Job pool semantics: p-limit plus Promise.all

Each handler builds one task per page and awaits Promise.all over them.
A task settles with the outcome of its worker.  The completion schedule
(a permutation of the admission indices) records wall-clock settlement
order; Promise.all resolves positionally when every task fulfills and
rejects with the reason of the first task to reject in wall-clock order. -/

/-- Settlement of one page job: the worker either returned a value or threw. -/
inductive JobOutcome (ε α : Type) where
  | ok (val : α)
  | err (msg : ε)
deriving DecidableEq

/-- True when the job fulfilled. -/
def JobOutcome.isOk : JobOutcome ε α → Bool
  | .ok _ => true
  | .err _ => false

/-- The fulfilled value, when there is one. -/
def JobOutcome.toOption : JobOutcome ε α → Option α
  | .ok a => some a
  | .err _ => none

/-- The first rejected job in wall-clock completion order, with its reason. -/
def firstRejection (w : Nat → JobOutcome ε α) : List Nat → Option (Nat × ε)
  | [] => none
  | i :: rest =>
    match w i with
    | .err e => some (i, e)
    | .ok _ => firstRejection w rest

/-- Promise.all over the tasks for jobs 0..n-1 with completion schedule
sched: rejects with the first wall-clock rejection, otherwise resolves
with the fulfilled values positionally, in job index order. -/
def promiseAll (n : Nat) (w : Nat → JobOutcome ε α) (sched : List Nat) :
    Except (Nat × ε) (List α) :=
  match firstRejection w sched with
  | some ie => .error ie
  | none => .ok ((List.range n).filterMap fun i => (w i).toOption)

/-! ## The p-limit concurrency ceiling as a state machine

p-limit(limit) admits queued jobs whenever fewer than limit are active;
a completion frees a slot and the queue refills it at once.  A run is the
admission burst followed by any number of completion steps. -/

/-- Pool state: jobs not yet admitted, and jobs currently in flight. -/
structure PoolState where
  pending : Nat
  active : Nat
deriving DecidableEq

/-- Admit queued jobs while slots are free. -/
def poolRefill (limit : Nat) (s : PoolState) : PoolState :=
  let k := min s.pending (limit - s.active)
  { pending := s.pending - k, active := s.active + k }

/-- Initial burst: n jobs submitted to an idle pool. -/
def poolStart (limit n : Nat) : PoolState :=
  poolRefill limit { pending := n, active := 0 }

/-- One job completes, then the queue refills the slot. -/
def poolFinish (limit : Nat) (s : PoolState) : PoolState :=
  poolRefill limit { pending := s.pending, active := s.active - 1 }

/-- Pool state after the admission burst and the given number of completions. -/
def poolRun (limit n : Nat) : Nat → PoolState
  | 0 => poolStart limit n
  | steps + 1 => poolFinish limit (poolRun limit n steps)

/-- src/index.js line 50: pLimit(5) for POST /pdf/image-to-pdf. -/
def imageToPdfLimit : Nat := 5

/-- src/index.js line 133: pLimit(2) for POST /pdf/pdf-to-image. -/
def pdfToImageLimit : Nat := 2

/-! ## Common response model

One record per request, capturing what the claims inspect: the HTTP
status, the error message carried in the JSON error body, the artifact
parts whose bytes reached the client in stream order, whether the full
artifact was delivered, and whether the staged upload and the scratch
directory are gone from disk when the handler is done. -/

structure HandlerResult where
  status : Nat
  errorDetails : Option String
  streamed : List String
  completed : Bool
  uploadDeleted : Bool
  scratchRemoved : Bool
deriving DecidableEq

/-! ## POST /pdf/image-to-pdf (src/index.js lines 45-90)

One task per uploaded image under pLimit(5); each worker re-encodes its
image with sharp and embeds it, returning the embedded image object.
Promise.all collects the embedded images positionally, and the page loop
then appends one page per embedded image in that array order, sized to
the image dimensions. -/

/-- Embedded image object: the dimensions used to size its page. -/
structure EmbeddedImage where
  width : Nat
  height : Nat
deriving DecidableEq

/-- The image-to-pdf pipeline for n uploaded images whose per-image encode
jobs settle as enc, under completion schedule sched.  The ok payload is
the final page list in document order. -/
def imageToPdfRun (n : Nat) (enc : Nat → JobOutcome String EmbeddedImage)
    (sched : List Nat) : Except String (List EmbeddedImage) :=
  if n = 0 then .error "Upload images"
  else
    match promiseAll n enc sched with
    | .error (_, m) => .error m
    | .ok imgs => .ok imgs

/-! ## POST /pdf/pdf-to-image, legacy pdf2pic variant (src/index.js lines 92-178)

The uploaded file is read and unlinked immediately; on any thrown error
the catch block unlinks it again and the finally block removes the output
directory, so model cleanup as unconditional.  One task per page index
under pLimit(2); the worker awaits converter(i) and throws
"Failed page i" when the result has no base64 payload.  Promise.all
gathers the results; a single page is sent directly, several pages are
appended to a zip in result-array order, named page_k.format. -/

structure LegacyInput where
  hasFile : Bool
  loadError : Option String
  pageCount : Nat
  conv : Nat → JobOutcome String (Option String)
  sched : List Nat
  format : Option String
  dpi : Option String

/-- The worker for 0-based job i (page number i+1): a converter rejection
propagates; a fulfilled result without base64 raises "Failed page i+1";
otherwise the base64 payload is returned. -/
def legacyWorker (conv : Nat → JobOutcome String (Option String)) (i : Nat) :
    JobOutcome String String :=
  match conv i with
  | .err m => .err m
  | .ok none => .err ("Failed page " ++ decRepr (i + 1))
  | .ok (some b) => .ok b

/-- The legacy pdf-to-image handler.  The response JSON on failure carries
err.message, recorded in errorDetails. -/
def legacyRun (inp : LegacyInput) : HandlerResult :=
  if inp.hasFile then
    match inp.loadError with
    | some m =>
      { status := 500, errorDetails := some m, streamed := [], completed := false,
        uploadDeleted := true, scratchRemoved := true }
    | none =>
      let format := parseFormat inp.format
      match promiseAll inp.pageCount (legacyWorker inp.conv) inp.sched with
      | .error (_, msg) =>
        { status := 500, errorDetails := some msg, streamed := [], completed := false,
          uploadDeleted := true, scratchRemoved := true }
      | .ok results =>
        if results.length = 1 then
          { status := 200, errorDetails := none, streamed := ["page1." ++ format],
            completed := true, uploadDeleted := true, scratchRemoved := true }
        else
          { status := 200, errorDetails := none,
            streamed := (List.range results.length).map
              (fun i => "page_" ++ decRepr (i + 1) ++ "." ++ format),
            completed := true, uploadDeleted := true, scratchRemoved := true }
  else
    { status := 400, errorDetails := some "Upload a PDF", streamed := [], completed := false,
      uploadDeleted := true, scratchRemoved := true }

/-! ## POST /pdf/v2/pdf-to-image/ (src/index.js lines 376-457)

The archive is piped to the response before the page tasks run, and each
task appends its rendered page as soon as it settles, so archive entries
are streamed in completion order.  The try block unlinks the staged
upload only after Promise.all and finalize succeed; the catch block sends
a 500 JSON when no bytes were streamed yet, and otherwise just ends the
truncated response.  It never unlinks the staged upload.  Entries are
named from page.number, the 1-based page number of job index i. -/

structure V2Input where
  hasFile : Bool
  loadError : Option String
  pageCount : Nat
  render : Nat → JobOutcome String String
  sched : List Nat
  format : Option String

/-- Extension computation of the v2 handler: format defaulted and
lowercased, jpeg mapped to the jpg file extension. -/
def v2Ext (field : Option String) : String :=
  let format := parseFormat field
  let outFormat := if format = "jpeg" then "jpeg" else format
  if outFormat = "jpeg" then "jpg" else outFormat

/-- Zip entry name for the page with 1-based number pageNumber. -/
def v2EntryName (ext : String) (pageNumber : Nat) : String :=
  "page_" ++ decRepr pageNumber ++ "." ++ ext

/-- The v2 handler.  In the rejection case the modelled stream holds the
entries appended by jobs that fulfilled before the first rejection; jobs
still in flight at that point may append further entries before the catch
runs, which only widens the partial output. -/
def v2Run (inp : V2Input) : HandlerResult :=
  if inp.hasFile then
    match inp.loadError with
    | some m =>
      { status := 500, errorDetails := some m, streamed := [], completed := false,
        uploadDeleted := false, scratchRemoved := true }
    | none =>
      if inp.pageCount = 0 then
        { status := 500, errorDetails := some "PDF has no pages", streamed := [],
          completed := false, uploadDeleted := false, scratchRemoved := true }
      else
        let ext := v2Ext inp.format
        match promiseAll inp.pageCount inp.render inp.sched with
        | .ok _ =>
          if 1 < inp.pageCount then
            { status := 200, errorDetails := none,
              streamed := inp.sched.map (fun i => v2EntryName ext (i + 1)),
              completed := true, uploadDeleted := true, scratchRemoved := true }
          else
            { status := 200, errorDetails := none, streamed := ["page1." ++ ext],
              completed := true, uploadDeleted := true, scratchRemoved := true }
        | .error (_, msg) =>
          let streamedPre :=
            if 1 < inp.pageCount then
              (inp.sched.takeWhile (fun i => (inp.render i).isOk)).map
                (fun i => v2EntryName ext (i + 1))
            else []
          if streamedPre = [] then
            { status := 500, errorDetails := some msg, streamed := [], completed := false,
              uploadDeleted := false, scratchRemoved := true }
          else
            { status := 200, errorDetails := some msg, streamed := streamedPre,
              completed := false, uploadDeleted := false, scratchRemoved := true }
  else
    { status := 400, errorDetails := some "Upload a PDF file", streamed := [],
      completed := false, uploadDeleted := true, scratchRemoved := true }

/-! ## POST /pdf/pdf-to-image, part_000 variant (src/unnamed/part_000 lines 92-185)

Pages are produced sequentially by the pdf-to-img async generator and
written to the scratch directory in page order; zero generated images
raises an error.  The finally block unlinks the staged upload and removes
the scratch directory on every exit path, so both cleanup fields are
unconditionally true. -/

structure P0Input where
  hasFile : Bool
  pages : Except String (List String)
  format : Option String
  dpi : Option String

/-- The jpeg-to-jpg renaming shared by part_000 and part_001. -/
def safeFormatOf (field : Option String) : String :=
  let format := parseFormat field
  if format = "jpeg" then "jpg" else format

/-- The part_000 handler. -/
def part000Run (inp : P0Input) : HandlerResult :=
  if inp.hasFile then
    let safeFormat := safeFormatOf inp.format
    match inp.pages with
    | .error m =>
      { status := 500, errorDetails := some m, streamed := [], completed := false,
        uploadDeleted := true, scratchRemoved := true }
    | .ok bufs =>
      if bufs.length = 0 then
        { status := 500, errorDetails := some "pdf-to-img failed to generate images",
          streamed := [], completed := false, uploadDeleted := true, scratchRemoved := true }
      else if bufs.length = 1 then
        { status := 200, errorDetails := none, streamed := ["page1." ++ safeFormat],
          completed := true, uploadDeleted := true, scratchRemoved := true }
      else
        { status := 200, errorDetails := none,
          streamed := (List.range bufs.length).map
            (fun i => "page-" ++ decRepr (i + 1) ++ "." ++ safeFormat),
          completed := true, uploadDeleted := true, scratchRemoved := true }
  else
    { status := 400, errorDetails := some "Upload a PDF", streamed := [], completed := false,
      uploadDeleted := true, scratchRemoved := true }

/-! ## POST /pdf/pdf-to-image, part_001 variant (src/unnamed/part_001 lines 92-190)

After the conversion loop the handler lists the scratch directory,
filters the names ending in the requested extension, and sorts them with
the comparator
  (a, b) => parseInt(a.match(/page-(\d+)\./)[1]) - parseInt(b.match(/page-(\d+)\./)[1])
which dereferences a null match for any name not containing page-,
digits, dot.  A thrown TypeError reaches the catch block and produces a
500 response. -/

/-- First match of the regex page-(digits)dot starting exactly here:
the literal page-, then a maximal nonempty digit run, then a dot. -/
def matchPageAt : List Char → Option Nat
  | 'p' :: 'a' :: 'g' :: 'e' :: '-' :: rest =>
    let ds := rest.takeWhile Char.isDigit
    if ds.isEmpty then none
    else
      match rest.dropWhile Char.isDigit with
      | '.' :: _ => some (digitsToNat ds)
      | _ => none
  | _ => none

/-- Left-to-right regex search over the whole name, as String.prototype.match
does without a global flag: the first position where the pattern matches
wins, and its capture group is returned. -/
def findPageKey : List Char → Option Nat
  | [] => none
  | c :: cs =>
    match matchPageAt (c :: cs) with
    | some k => some k
    | none => findPageKey cs

/-- Capture group 1 of name.match(/page-(\d+)\./) fed through parseInt,
or none when match returns null. -/
def pageKeyOf (name : String) : Option Nat := findPageKey name.data

/-- The comparator: evaluates the key of a first, then the key of b,
throwing a TypeError at the first null match. -/
def cmpPage (a b : String) : Except String Int :=
  match pageKeyOf a with
  | none => .error "TypeError: null match"
  | some ka =>
    match pageKeyOf b with
    | none => .error "TypeError: null match"
    | some kb => .ok ((ka : Int) - kb)

/-- Comparison-sort insertion step; a comparator error aborts the sort. -/
def insertPage (a : String) : List String → Except String (List String)
  | [] => .ok [a]
  | b :: rest =>
    match cmpPage a b with
    | .error e => .error e
    | .ok c =>
      if c ≤ 0 then .ok (a :: b :: rest)
      else (insertPage a rest).map fun r => b :: r

/-- The sort of the filtered listing.  Array.prototype.sort calls the
comparator on no pair when the array has fewer than two elements, and
compares every element at least once when it has two or more; this
insertion sort has the same two properties. -/
def sortPages : List String → Except String (List String)
  | [] => .ok []
  | a :: rest =>
    match sortPages rest with
    | .error e => .error e
    | .ok s => insertPage a s

/-- The part_001 handler from the readdir result on: filter by extension,
reject an empty listing, sort, then send one file directly or zip the
sorted files under 1-based page_k names.  The finally block makes both
cleanup fields unconditionally true. -/
def part001Post (files : List String) (format : Option String) : HandlerResult :=
  let safeFormat := safeFormatOf format
  let imageFiles := files.filter fun f => endsWithJs f ("." ++ safeFormat)
  if imageFiles.length = 0 then
    { status := 500,
      errorDetails := some ("pdf-to-img failed to generate " ++ safeFormat ++ " images"),
      streamed := [], completed := false, uploadDeleted := true, scratchRemoved := true }
  else
    match sortPages imageFiles with
    | .error e =>
      { status := 500, errorDetails := some e, streamed := [], completed := false,
        uploadDeleted := true, scratchRemoved := true }
    | .ok sorted =>
      if sorted.length = 1 then
        { status := 200, errorDetails := none, streamed := ["page1." ++ safeFormat],
          completed := true, uploadDeleted := true, scratchRemoved := true }
      else
        { status := 200, errorDetails := none,
          streamed := (List.range sorted.length).map
            (fun i => "page_" ++ decRepr (i + 1) ++ "." ++ safeFormat),
          completed := true, uploadDeleted := true, scratchRemoved := true }

/-! ## Scratch directory naming

part_000 line 93-94: outputDir = path.join(os.tmpdir(), "conversion_" + Date.now()).
legacy src/index.js line 94-95: outputDir = path.join(__dirname, "conversion_output_" + Date.now()).
Both names depend on the arrival millisecond only.  The process-constant
bases are modelled as fixed strings. -/

/-- A request, identified for concurrency purposes: distinct concurrent
requests have distinct identifiers; arrivalMs is Date.now() at entry. -/
structure IncomingRequest where
  reqId : Nat
  arrivalMs : Nat
deriving DecidableEq

/-- os.tmpdir(), constant within one process. -/
def tmpDirStr : String := "/tmp"

/-- __dirname of the legacy variant, constant within one process. -/
def srcDirStr : String := "/app/src"

/-- Scratch directory of a part_000 request. -/
def part000OutputDir (r : IncomingRequest) : String :=
  tmpDirStr ++ "/" ++ ("conversion_" ++ decRepr r.arrivalMs)

/-- Scratch directory of a legacy request. -/
def legacyOutputDir (r : IncomingRequest) : String :=
  srcDirStr ++ "/" ++ ("conversion_output_" ++ decRepr r.arrivalMs)

/-! ## Concrete request instances used by the claim analyses -/

/-- A two-page v2 request whose jobs both render, with the second page
settling before the first. -/
def c1Input : V2Input :=
  { hasFile := true, loadError := none, pageCount := 2,
    render := fun _ => .ok "rendered", sched := [1, 0], format := none }

/-- A two-page v2 request with in-order completion, for instantiating the
ordering theorem. -/
def c1WitInput : V2Input :=
  { hasFile := true, loadError := none, pageCount := 2,
    render := fun _ => .ok "rendered", sched := [0, 1], format := none }

/-- A v2 request whose uploaded document has zero pages. -/
def c2Input : V2Input :=
  { hasFile := true, loadError := none, pageCount := 0,
    render := fun _ => .ok "rendered", sched := [], format := none }

/-- A successful one-page part_000 request and a successful one-page v2
request, for instantiating the cleanup theorem. -/
def c2WitP0 : P0Input :=
  { hasFile := true, pages := .ok ["buf"], format := none, dpi := none }

def c2WitV2 : V2Input :=
  { hasFile := true, loadError := none, pageCount := 1,
    render := fun _ => .ok "rendered", sched := [0], format := none }

/-- A three-page legacy request where page 1 converts, pages 2 and 3 lack
a base64 payload, and page 3 settles before page 2. -/
def c3Input : LegacyInput :=
  { hasFile := true, loadError := none, pageCount := 3,
    conv := fun i => if i = 0 then .ok (some "b64") else .ok none,
    sched := [0, 2, 1], format := none, dpi := none }

/-- A one-page legacy request whose only page fails, completing in
admission order. -/
def c3WitInput : LegacyInput :=
  { hasFile := true, loadError := none, pageCount := 1,
    conv := fun _ => .ok none, sched := [0], format := none, dpi := none }

/-- A two-page converter where page 1 yields base64 and page 2 does not. -/
def c4Conv : Nat → JobOutcome String (Option String) :=
  fun i => if i = 0 then .ok (some "b64") else .ok none

/-- A two-page v2 request whose first page renders and streams before the
second page fails. -/
def c5Input : V2Input :=
  { hasFile := true, loadError := none, pageCount := 2,
    render := fun i => if i = 0 then .ok "rendered" else .err "render failed",
    sched := [0, 1], format := none }

/-- A two-page v2 request whose first completion is the failing page. -/
def c5WitInput : V2Input :=
  { hasFile := true, loadError := none, pageCount := 2,
    render := fun i => if i = 0 then .err "render failed" else .ok "rendered",
    sched := [0, 1], format := none }

/-- A zero-page v2 request and a zero-page legacy request. -/
def c6Input : V2Input :=
  { hasFile := true, loadError := none, pageCount := 0,
    render := fun _ => .ok "rendered", sched := [], format := none }

def c6LegacyInput : LegacyInput :=
  { hasFile := true, loadError := none, pageCount := 0,
    conv := fun _ => .ok none, sched := [], format := none, dpi := none }

/-! # Theorems

General lemmas about the pool semantics, the sort, decimal printing and
the pool state machine come first; the per-claim theorems follow. -/

theorem firstRejection_eq_none {ε α : Type} {w : Nat → JobOutcome ε α} {l : List Nat} :
    firstRejection w l = none ↔ ∀ i ∈ l, (w i).isOk = true := by
  induction l with
  | nil => simp [firstRejection]
  | cons i rest ih =>
    cases h : w i <;> simp [firstRejection, h, ih, JobOutcome.isOk]

theorem firstRejection_some {ε α : Type} {w : Nat → JobOutcome ε α} {l : List Nat}
    {j : Nat} {e : ε} (h : firstRejection w l = some (j, e)) : j ∈ l ∧ w j = .err e := by
  induction l with
  | nil => simp [firstRejection] at h
  | cons i rest ih =>
    cases hw : w i with
    | ok v =>
      simp only [firstRejection, hw] at h
      rcases ih h with ⟨hm, he⟩
      exact ⟨List.mem_cons_of_mem _ hm, he⟩
    | err m =>
      simp only [firstRejection, hw, Option.some.injEq, Prod.mk.injEq] at h
      obtain ⟨rfl, rfl⟩ := h
      exact ⟨List.mem_cons_self i rest, hw⟩

theorem firstRejection_append {ε α : Type} {w : Nat → JobOutcome ε α} (l₁ l₂ : List Nat) :
    firstRejection w (l₁ ++ l₂) =
      match firstRejection w l₁ with
      | some x => some x
      | none => firstRejection w l₂ := by
  induction l₁ with
  | nil => simp [firstRejection]
  | cons i rest ih =>
    cases hw : w i <;> simp [firstRejection, hw, ih]

theorem firstRejection_range {ε α : Type} {w : Nat → JobOutcome ε α} {n j : Nat} {e : ε}
    (h : firstRejection w (List.range n) = some (j, e)) :
    w j = .err e ∧ ∀ i, i < j → (w i).isOk = true := by
  induction n with
  | zero => simp [List.range_zero, firstRejection] at h
  | succ n ih =>
    rw [List.range_succ, firstRejection_append] at h
    cases hfr : firstRejection w (List.range n) with
    | some x =>
      obtain ⟨a, b⟩ := x
      rw [hfr] at h
      simp only [Option.some.injEq, Prod.mk.injEq] at h
      obtain ⟨rfl, rfl⟩ := h
      exact ih hfr
    | none =>
      rw [hfr] at h
      cases hw : w n with
      | ok v => simp [firstRejection, hw] at h
      | err m =>
        simp only [firstRejection, hw, Option.some.injEq, Prod.mk.injEq] at h
        obtain ⟨rfl, rfl⟩ := h
        refine ⟨hw, fun i hi => ?_⟩
        exact firstRejection_eq_none.mp hfr i (List.mem_range.mpr hi)

theorem filterMap_toOption_length {ε α : Type} {w : Nat → JobOutcome ε α} :
    ∀ l : List Nat, (∀ i ∈ l, (w i).isOk = true) →
      (l.filterMap fun i => (w i).toOption).length = l.length := by
  intro l
  induction l with
  | nil => simp
  | cons i rest ih =>
    intro hl
    have hi := hl i (List.mem_cons_self i rest)
    cases hw : w i with
    | ok v =>
      have hcons : (i :: rest).filterMap (fun i => (w i).toOption) =
          v :: rest.filterMap (fun i => (w i).toOption) := by
        simp [List.filterMap_cons, hw, JobOutcome.toOption]
      rw [hcons, List.length_cons, List.length_cons,
        ih fun j hj => hl j (List.mem_cons_of_mem _ hj)]
    | err m => rw [hw] at hi; simp [JobOutcome.isOk] at hi

theorem promiseAll_ok {ε α : Type} {n : Nat} {w : Nat → JobOutcome ε α} {sched : List Nat}
    (hperm : sched.Perm (List.range n)) (hok : ∀ i, i < n → (w i).isOk = true) :
    promiseAll n w sched = .ok ((List.range n).filterMap fun i => (w i).toOption) ∧
      ((List.range n).filterMap fun i => (w i).toOption).length = n := by
  have hnone : firstRejection w sched = none := by
    rw [firstRejection_eq_none]
    intro i hi
    exact hok i (List.mem_range.mp (hperm.mem_iff.mp hi))
  refine ⟨by simp [promiseAll, hnone], ?_⟩
  rw [filterMap_toOption_length (List.range n) fun i hi => hok i (List.mem_range.mp hi)]
  exact List.length_range n

theorem promiseAll_err {ε α : Type} {n : Nat} {w : Nat → JobOutcome ε α} {sched : List Nat}
    (hex : ∃ i ∈ sched, (w i).isOk = false) :
    ∃ j e, promiseAll n w sched = .error (j, e) ∧ w j = .err e := by
  cases hfr : firstRejection w sched with
  | none =>
    exfalso
    obtain ⟨i, hi, hbad⟩ := hex
    rw [firstRejection_eq_none.mp hfr i hi] at hbad
    exact Bool.noConfusion hbad
  | some x =>
    obtain ⟨j, e⟩ := x
    exact ⟨j, e, by simp [promiseAll, hfr], (firstRejection_some hfr).2⟩

theorem poolRefill_active_le {limit : Nat} (s : PoolState) (h : s.active ≤ limit) :
    (poolRefill limit s).active ≤ limit := by
  simp only [poolRefill]
  omega

theorem poolRun_active_le (limit n : Nat) : ∀ steps, (poolRun limit n steps).active ≤ limit := by
  intro steps
  induction steps with
  | zero =>
    show (poolStart limit n).active ≤ limit
    exact poolRefill_active_le _ (Nat.zero_le _)
  | succ k ih =>
    show (poolFinish limit (poolRun limit n k)).active ≤ limit
    refine poolRefill_active_le _ ?_
    show (poolRun limit n k).active - 1 ≤ limit
    omega

theorem digitValCh_digitChar {d : Nat} (h : d < 10) : digitValCh (Nat.digitChar d) = d := by
  interval_cases d <;> rfl

theorem valLE_decReprAux : ∀ fuel n : Nat, n ≤ fuel → valLE (decReprAux fuel n) = n := by
  intro fuel
  induction fuel with
  | zero =>
    intro n hn
    have h0 : n = 0 := Nat.le_zero.mp hn
    subst h0
    rfl
  | succ fuel ih =>
    intro n hn
    by_cases h0 : n = 0
    · subst h0; simp [decReprAux, valLE]
    · have hdiv : n / 10 ≤ fuel := by
        have := Nat.div_lt_self (Nat.pos_of_ne_zero h0) (by norm_num : 1 < 10)
        omega
      simp only [decReprAux, if_neg h0, valLE]
      rw [digitValCh_digitChar (Nat.mod_lt n (by norm_num)), ih (n / 10) hdiv]
      omega

theorem decRepr_injective {m n : Nat} (h : decRepr m = decRepr n) : m = n := by
  unfold decRepr at h
  by_cases hm : m = 0 <;> by_cases hn : n = 0
  · omega
  · exfalso
    rw [if_pos hm, if_neg hn] at h
    have hd : (decReprAux n n).reverse = ("0" : String).data := congrArg String.data h.symm
    have hlist : decReprAux n n = ['0'] := by
      have := congrArg List.reverse hd
      rwa [List.reverse_reverse] at this
    have hv := valLE_decReprAux n n (Nat.le_refl n)
    rw [hlist] at hv
    simp [valLE, digitValCh] at hv
    exact hn hv.symm
  · exfalso
    rw [if_neg hm, if_pos hn] at h
    have hd : (decReprAux m m).reverse = ("0" : String).data := congrArg String.data h
    have hlist : decReprAux m m = ['0'] := by
      have := congrArg List.reverse hd
      rwa [List.reverse_reverse] at this
    have hv := valLE_decReprAux m m (Nat.le_refl m)
    rw [hlist] at hv
    simp [valLE, digitValCh] at hv
    exact hm hv.symm
  · rw [if_neg hm, if_neg hn] at h
    have hd := congrArg String.data h
    have hrev := List.reverse_injective hd
    have hv1 := valLE_decReprAux m m (Nat.le_refl m)
    have hv2 := valLE_decReprAux n n (Nat.le_refl n)
    rw [← hv1, ← hv2, hrev]

theorem string_append_cancel_left {p a b : String} (h : p ++ a = p ++ b) : a = b := by
  have hd := congrArg String.data h
  rw [String.data_append, String.data_append] at hd
  exact String.ext (List.append_cancel_left hd)

theorem insertPage_ok_length :
    ∀ (l : List String) (a : String) (r : List String),
      insertPage a l = .ok r → r.length = l.length + 1 := by
  intro l
  induction l with
  | nil =>
    intro a r h
    simp only [insertPage, Except.ok.injEq] at h
    rw [← h]
    rfl
  | cons b rest ih =>
    intro a r h
    simp only [insertPage] at h
    cases hc : cmpPage a b with
    | error e => simp only [hc] at h; exact Except.noConfusion h
    | ok c =>
      simp only [hc] at h
      by_cases hle : c ≤ 0
      · rw [if_pos hle] at h
        simp only [Except.ok.injEq] at h
        rw [← h]
        rfl
      · rw [if_neg hle] at h
        cases hrec : insertPage a rest with
        | error e => simp only [hrec, Except.map] at h; exact Except.noConfusion h
        | ok r' =>
          simp only [hrec, Except.map, Except.ok.injEq] at h
          rw [← h, List.length_cons, ih a r' hrec, List.length_cons]

theorem sortPages_ok_length :
    ∀ {l s : List String}, sortPages l = .ok s → s.length = l.length := by
  intro l
  induction l with
  | nil =>
    intro s h
    simp only [sortPages, Except.ok.injEq] at h
    rw [← h]
  | cons a rest ih =>
    intro s h
    simp only [sortPages] at h
    cases hr : sortPages rest with
    | error e => simp only [hr] at h; exact Except.noConfusion h
    | ok s' =>
      simp only [hr] at h
      rw [insertPage_ok_length s' a s h, ih hr, List.length_cons]

theorem sortPages_err :
    ∀ l : List String, 2 ≤ l.length → (∃ f ∈ l, pageKeyOf f = none) →
      ∃ e, sortPages l = .error e := by
  intro l
  induction l with
  | nil => intro h; simp at h
  | cons a rest ih =>
    intro hlen hex
    obtain ⟨f, hf, hkey⟩ := hex
    rcases List.mem_cons.mp hf with rfl | hfr
    · cases hrest : sortPages rest with
      | error e => exact ⟨e, by simp [sortPages, hrest]⟩
      | ok s =>
        have hslen : s.length = rest.length := sortPages_ok_length hrest
        have hne : s ≠ [] := by
          intro hnil
          rw [hnil] at hslen
          simp at hslen
          rw [List.length_cons, ← hslen] at hlen
          omega
        obtain ⟨c, s', rfl⟩ := List.exists_cons_of_ne_nil hne
        exact ⟨"TypeError: null match", by simp [sortPages, hrest, insertPage, cmpPage, hkey]⟩
    · by_cases h2 : 2 ≤ rest.length
      · obtain ⟨e, he⟩ := ih h2 ⟨f, hfr, hkey⟩
        exact ⟨e, by simp [sortPages, he]⟩
      · have h1 : rest.length = 1 := by
          have := List.length_pos.mpr (List.ne_nil_of_mem hfr)
          omega
        obtain ⟨x, rfl⟩ := List.length_eq_one.mp h1
        have hx : f = x := List.mem_singleton.mp hfr
        subst hx
        refine ⟨"TypeError: null match", ?_⟩
        cases hka : pageKeyOf a <;>
          simp [sortPages, insertPage, cmpPage, hka, hkey]

/-! ## Claim C7: scratch-area uniqueness -/

/-- C7 counterexample: two distinct requests admitted in the same
millisecond receive the same scratch directory in both the part_000 and
the legacy naming scheme, refuting the claim that every pair of distinct
concurrent requests has distinct, exclusively owned scratch locations. -/
theorem c7_counterexample :
    (⟨0, 1700⟩ : IncomingRequest) ≠ (⟨1, 1700⟩ : IncomingRequest) ∧
    part000OutputDir ⟨0, 1700⟩ = part000OutputDir ⟨1, 1700⟩ ∧
    legacyOutputDir ⟨0, 1700⟩ = legacyOutputDir ⟨1, 1700⟩ :=
  ⟨by decide, rfl, rfl⟩

/-- C7 (amended): the scratch directory name is determined by the arrival
millisecond alone, so two requests obtain the same scratch location
exactly when their Date.now() values coincide; uniqueness holds only
across differing milliseconds, not across distinct requests. -/
theorem c7_scratch_uniqueness (r1 r2 : IncomingRequest) :
    (part000OutputDir r1 = part000OutputDir r2 ↔ r1.arrivalMs = r2.arrivalMs) ∧
    (legacyOutputDir r1 = legacyOutputDir r2 ↔ r1.arrivalMs = r2.arrivalMs) := by
  constructor
  · constructor
    · intro h
      unfold part000OutputDir at h
      exact decRepr_injective (string_append_cancel_left (string_append_cancel_left h))
    · intro h
      unfold part000OutputDir
      rw [h]
  · constructor
    · intro h
      unfold legacyOutputDir at h
      exact decRepr_injective (string_append_cancel_left (string_append_cancel_left h))
    · intro h
      unfold legacyOutputDir
      rw [h]

/-! ## Claim C8: bounded concurrency with per-direction ceilings -/

/-- C8: at most limit jobs are ever in flight in the p-limit pool, over
every completion trace; and the two pipeline directions of the legacy
variant use distinct ceilings, the pdf-to-image ceiling (2) strictly
below the image-to-pdf ceiling (5), not one shared global value. -/
theorem c8_concurrency_ceiling :
    (∀ limit n steps : Nat, (poolRun limit n steps).active ≤ limit) ∧
    pdfToImageLimit < imageToPdfLimit ∧ pdfToImageLimit ≠ imageToPdfLimit :=
  ⟨poolRun_active_le, by decide, by decide⟩

/-! ## Claim C9: leniency of the resolution and format parameters -/

/-- C9 counterexample: a negative (out-of-range) dpi value such as -50 is
kept rather than replaced by the documented default, and an unrecognized
format value such as bmp is kept rather than replaced by the default
format, refuting the claim that both fall back. -/
theorem c9_counterexample :
    parseDpi 150 (some "-50") = -50 ∧ (-50 : Int) < 0 ∧
    parseDpi 150 (some "-50") ≠ 150 ∧
    parseFormat (some "bmp") = "bmp" ∧
    "bmp" ∉ (["png", "jpeg", "jpg"] : List String) ∧
    parseFormat (some "bmp") ≠ "png" := by
  decide

/-- C9 (amended): a missing, non-numeric or zero resolution field falls
back to the default, but any other parsed value, negative values
included, is passed through; a missing or empty format field falls back
to png, and any other value is merely lowercased and passed through with
no recognition check. -/
theorem c9_parameter_fallback :
    (∀ d : Int, parseDpi d none = d) ∧
    (∀ (d : Int) (s : String), parseIntJs s = none → parseDpi d (some s) = d) ∧
    (∀ (d : Int) (s : String), parseIntJs s = some 0 → parseDpi d (some s) = d) ∧
    (∀ (d v : Int) (s : String), parseIntJs s = some v → v ≠ 0 → parseDpi d (some s) = v) ∧
    parseFormat none = "png" ∧ parseFormat (some "") = "png" ∧
    (∀ s : String, s ≠ "" → parseFormat (some s) = toLowerJs s) := by
  refine ⟨fun d => rfl, ?_, ?_, ?_, rfl, by decide, ?_⟩
  · intro d s h
    simp [parseDpi, h]
  · intro d s h
    simp [parseDpi, h]
  · intro d v s h hv
    simp [parseDpi, h, hv]
  · intro s h
    simp [parseFormat, h]

/-- C9 witness: the fallback theorem instantiated at the concrete fields
abc (non-numeric), 0, -50 and bmp. -/
theorem c9_parameter_fallback_witness :
    parseDpi 150 (some "abc") = 150 ∧ parseDpi 2 (some "0") = 2 ∧
    parseDpi 150 (some "-50") = -50 ∧ parseFormat (some "BMP") = "bmp" := by
  have h := c9_parameter_fallback
  exact ⟨h.2.1 150 "abc" (by decide), h.2.2.1 2 "0" (by decide),
    h.2.2.2.1 150 (-50) "-50" (by decide) (by decide),
    by rw [h.2.2.2.2.2.2 "BMP" (by decide)]; decide⟩

/-! ## Claim C10: totality of the part_001 filename sort -/

/-- C10 counterexample: a listing whose single file passes the extension
filter but does not match the page-digits-dot pattern never invokes the
comparator, so the handler does not throw: it returns the file as the
single image with status 200, refuting the universally quantified claim
that any listing containing such a file makes the handler throw a 500. -/
theorem c10_counterexample :
    endsWithJs "cover.png" ".png" = true ∧
    pageKeyOf "cover.png" = none ∧
    (part001Post ["cover.png"] none).status = 200 ∧
    (part001Post ["cover.png"] none).completed = true ∧
    (part001Post ["cover.png"] none).status ≠ 500 := by
  decide

/-- C10 (amended): whenever the filtered listing has at least two entries
and one of them does not match the page-digits-dot pattern, some
comparison dereferences the null match, the sort aborts and the handler
answers 500; the sort is thus a total function only on listings whose
filtered entries all match the pattern or have fewer than two elements. -/
theorem c10_sort_totality (files : List String) (format : Option String)
    (hlen : 2 ≤ (files.filter fun f => endsWithJs f ("." ++ safeFormatOf format)).length)
    (hbad : ∃ f ∈ files.filter fun f => endsWithJs f ("." ++ safeFormatOf format),
      pageKeyOf f = none) :
    (part001Post files format).status = 500 ∧ (part001Post files format).completed = false := by
  obtain ⟨e, he⟩ :=
    sortPages_err (files.filter fun f => endsWithJs f ("." ++ safeFormatOf format)) hlen hbad
  unfold part001Post
  rw [if_neg (by omega)]
  rw [he]
  exact ⟨rfl, rfl⟩

/-- C10 witness: the totality theorem instantiated at a listing holding
one matching and one non-matching name. -/
theorem c10_sort_totality_witness :
    (part001Post ["page-1.png", "cover.png"] none).status = 500 ∧
    (part001Post ["page-1.png", "cover.png"] none).completed = false :=
  c10_sort_totality ["page-1.png", "cover.png"] none (by decide)
    ⟨"cover.png", by decide, by decide⟩

/-! ## Claim C1: output ordering under out-of-order completion -/

/-- C1 counterexample: a two-page v2 request in which page 2 settles
before page 1 emits the archive entries in completion order, page_2
before page_1, refuting the claim that the emitted output order equals
the input index order for every completion permutation in both
directions. -/
theorem c1_counterexample :
    c1Input.sched.Perm (List.range c1Input.pageCount) ∧
    (v2Run c1Input).completed = true ∧
    (v2Run c1Input).streamed = ["page_2.png", "page_1.png"] ∧
    (v2Run c1Input).streamed ≠ ["page_1.png", "page_2.png"] := by
  decide

/-- C1 (amended): the images-to-document direction emits its pages in
input index order under every completion permutation, because Promise.all
collects positionally; the v2 document-to-images handler instead appends
archive entries in completion order (each named by its true page number),
so its entry order equals the input order only when jobs complete in
admission order. -/
theorem c1_output_order :
    (∀ (n : Nat) (enc : Nat → JobOutcome String EmbeddedImage) (sched : List Nat),
      sched.Perm (List.range n) → 0 < n →
      (∀ i, i < n → (enc i).isOk = true) →
      imageToPdfRun n enc sched =
        .ok ((List.range n).filterMap fun i => (enc i).toOption) ∧
      ((List.range n).filterMap fun i => (enc i).toOption).length = n) ∧
    (∀ inp : V2Input, inp.hasFile = true → inp.loadError = none →
      1 < inp.pageCount → inp.sched.Perm (List.range inp.pageCount) →
      (∀ i, i < inp.pageCount → (inp.render i).isOk = true) →
      (v2Run inp).streamed =
        inp.sched.map fun i => v2EntryName (v2Ext inp.format) (i + 1)) := by
  constructor
  · intro n enc sched hperm hn hok
    obtain ⟨hall, hlen⟩ := promiseAll_ok hperm hok
    refine ⟨?_, hlen⟩
    unfold imageToPdfRun
    rw [if_neg (by omega), hall]
  · intro inp hfile hload hmult hperm hok
    obtain ⟨hall, _⟩ := promiseAll_ok hperm hok
    have h0 : ¬inp.pageCount = 0 := by omega
    simp [v2Run, hfile, hload, h0, hall, hmult]

/-- C1 witness: the ordering theorem instantiated at a two-image upload
completing out of order and a two-page v2 request completing in order. -/
theorem c1_output_order_witness :
    imageToPdfRun 2 (fun _ => .ok ⟨100, 200⟩) [1, 0] = .ok [⟨100, 200⟩, ⟨100, 200⟩] ∧
    (v2Run c1WitInput).streamed = ["page_1.png", "page_2.png"] := by
  have h1 := (c1_output_order.1 2 (fun _ => .ok ⟨100, 200⟩) [1, 0] (by decide) (by decide)
    fun i hi => rfl).1
  have h2 := c1_output_order.2 c1WitInput rfl rfl (by decide) (by decide) fun i hi => rfl
  exact ⟨by rw [h1]; rfl, by rw [h2]; decide⟩

/-! ## Claim C2: unconditional cleanup of scratch state -/

/-- C2 counterexample: a failing v2 request, here one whose document has
zero pages, completes with the staged uploaded file still on disk,
refuting the claim that for every request the scratch state and the
staged input are gone after completion. -/
theorem c2_counterexample :
    c2Input.hasFile = true ∧
    (v2Run c2Input).status = 500 ∧
    (v2Run c2Input).uploadDeleted = false := by
  decide

/-- C2 (amended): the part_000 handler, whose finally block runs on every
exit path, always removes both the staged upload and the scratch
directory; the v2 handler unlinks the staged upload exactly on the paths
that deliver the complete artifact, so every failing v2 request leaks the
staged uploaded file. -/
theorem c2_cleanup :
    (∀ inp : P0Input, (part000Run inp).uploadDeleted = true ∧
      (part000Run inp).scratchRemoved = true) ∧
    (∀ inp : V2Input, inp.hasFile = true →
      (v2Run inp).uploadDeleted = (v2Run inp).completed) := by
  constructor
  · intro inp
    obtain ⟨hf, pages, fmt, dpi⟩ := inp
    cases hf
    · exact ⟨rfl, rfl⟩
    · cases pages with
      | error m => exact ⟨rfl, rfl⟩
      | ok bufs =>
        by_cases h0 : bufs.length = 0
        · simp [part000Run, h0]
        · by_cases h1 : bufs.length = 1
          · simp [part000Run, h0, h1]
          · simp [part000Run, h0, h1]
  · intro inp hfile
    cases hl : inp.loadError with
    | some m => simp [v2Run, hfile, hl]
    | none =>
      by_cases h0 : inp.pageCount = 0
      · simp [v2Run, hfile, hl, h0]
      · cases hp : promiseAll inp.pageCount inp.render inp.sched with
        | ok vs =>
          by_cases hm : 1 < inp.pageCount <;> simp [v2Run, hfile, hl, h0, hp, hm]
        | error x =>
          obtain ⟨j, msg⟩ := x
          simp [v2Run, hfile, hl, h0, hp, apply_ite]

/-- C2 witness: the cleanup theorem instantiated at a successful
part_000 request and a successful one-page v2 request. -/
theorem c2_cleanup_witness :
    ((part000Run c2WitP0).uploadDeleted = true ∧
      (part000Run c2WitP0).scratchRemoved = true) ∧
    (v2Run c2WitV2).uploadDeleted = (v2Run c2WitV2).completed :=
  ⟨c2_cleanup.1 c2WitP0, c2_cleanup.2 c2WitV2 rfl⟩

/-! ## Claim C3: which failure is reported -/

/-- C3 counterexample: for pages ok, failing, failing with the failure of
page 3 settling before the failure of page 2, the legacy handler reports
Failed page 3, not the lowest-index failure Failed page 2, refuting the
claim that the lowest-index failed job is reported under every completion
schedule. -/
theorem c3_counterexample :
    c3Input.sched.Perm (List.range c3Input.pageCount) ∧
    (legacyRun c3Input).status = 500 ∧
    (legacyRun c3Input).errorDetails = some "Failed page 3" ∧
    legacyWorker c3Input.conv 1 = .err "Failed page 2" ∧
    (legacyWorker c3Input.conv 0).isOk = true ∧
    (legacyRun c3Input).errorDetails ≠ some "Failed page 2" := by
  decide

/-- C3 (amended): the failure reported by the legacy handler is the
failed job that settles first in wall-clock order, the Promise.all
rejection; it coincides with the lowest-index failure exactly when the
completion schedule is the admission order, in which case every job below
the reported one fulfilled. -/
theorem c3_reported_failure :
    ∀ inp : LegacyInput, inp.hasFile = true → inp.loadError = none →
      (∀ j e, firstRejection (legacyWorker inp.conv) inp.sched = some (j, e) →
        (legacyRun inp).status = 500 ∧ (legacyRun inp).errorDetails = some e ∧
        legacyWorker inp.conv j = .err e) ∧
      (inp.sched = List.range inp.pageCount →
        ∀ j e, firstRejection (legacyWorker inp.conv) inp.sched = some (j, e) →
          legacyWorker inp.conv j = .err e ∧
          ∀ i, i < j → (legacyWorker inp.conv i).isOk = true) := by
  intro inp hfile hload
  constructor
  · intro j e hfr
    have hw := (firstRejection_some hfr).2
    have hrun : legacyRun inp =
        { status := 500, errorDetails := some e, streamed := [], completed := false,
          uploadDeleted := true, scratchRemoved := true } := by
      simp [legacyRun, hfile, hload, promiseAll, hfr]
    rw [hrun]
    exact ⟨rfl, rfl, hw⟩
  · intro hsched j e hfr
    rw [hsched] at hfr
    exact ⟨(firstRejection_some hfr).2, (firstRejection_range hfr).2⟩

/-- C3 witness: the reporting theorem instantiated at a one-page request
whose only page fails in admission order. -/
theorem c3_reported_failure_witness :
    (legacyRun c3WitInput).status = 500 ∧
    (legacyRun c3WitInput).errorDetails = some "Failed page 1" ∧
    legacyWorker c3WitInput.conv 0 = .err "Failed page 1" ∧
    (∀ i, i < 0 → (legacyWorker c3WitInput.conv i).isOk = true) := by
  have h := (c3_reported_failure c3WitInput rfl rfl).1 0 "Failed page 1" (by decide)
  have h2 := (c3_reported_failure c3WitInput rfl rfl).2 (by decide) 0 "Failed page 1" (by decide)
  exact ⟨h.1, h.2.1, h.2.2, h2.2⟩

/-! ## Claim C4: worker failures and the pool boundary -/

/-- C4 counterexample: with one fulfilled and one failing page, the
aggregate over the tasks rejects, so the failing outcome is not captured
as a per-job result and the fulfilled sibling value is discarded,
refuting the claim that the worker never raises past the pool boundary
and that every submitted job yields a captured result. -/
theorem c4_counterexample :
    promiseAll 2 (legacyWorker c4Conv) [0, 1] = .error (1, "Failed page 2") ∧
    (legacyWorker c4Conv 0).isOk = true ∧
    (promiseAll 2 (legacyWorker c4Conv) [0, 1]).isOk = false :=
  ⟨rfl, rfl, rfl⟩

/-- C4 (amended): over every completion permutation, the aggregate
resolves with one value per submitted job, positionally, exactly when
every worker fulfills; when any worker fails, the aggregate rejects with
the first wall-clock failure, which thus passes the pool boundary as an
exception instead of a captured result. -/
theorem c4_pool_capture :
    ∀ (n : Nat) (w : Nat → JobOutcome String String) (sched : List Nat),
      sched.Perm (List.range n) →
      ((∀ i, i < n → (w i).isOk = true) →
        promiseAll n w sched = .ok ((List.range n).filterMap fun i => (w i).toOption) ∧
        ((List.range n).filterMap fun i => (w i).toOption).length = n) ∧
      ((∃ i, i < n ∧ (w i).isOk = false) →
        ∃ j e, promiseAll n w sched = .error (j, e) ∧ w j = .err e) := by
  intro n w sched hperm
  constructor
  · intro hok
    exact promiseAll_ok hperm hok
  · intro hex
    obtain ⟨i, hi, hbad⟩ := hex
    exact promiseAll_err ⟨i, hperm.mem_iff.mpr (List.mem_range.mpr hi), hbad⟩

/-- C4 witness: the capture theorem instantiated at a fulfilled
single-job pool and at a failing single-job pool. -/
theorem c4_pool_capture_witness :
    promiseAll 1 (fun _ => (JobOutcome.ok "val" : JobOutcome String String)) [0] = .ok ["val"] ∧
    (∃ j e, promiseAll 1 (fun _ => (JobOutcome.err "boom" : JobOutcome String String)) [0] =
      .error (j, e) ∧
      (fun _ => (JobOutcome.err "boom" : JobOutcome String String)) j = .err e) := by
  have h1 := (c4_pool_capture 1 (fun _ => .ok "val") [0] (by decide)).1 fun i hi => rfl
  have h2 := (c4_pool_capture 1 (fun _ => .err "boom") [0] (by decide)).2 ⟨0, by decide, rfl⟩
  exact ⟨by rw [h1.1]; rfl, h2⟩

/-! ## Claim C5: no partial output -/

/-- C5 counterexample: a two-page v2 request whose first page streams
into the piped archive before the second page fails delivers a nonempty
proper part of the artifact and never completes it, refuting the claim
that either the full artifact or no output bytes are sent. -/
theorem c5_counterexample :
    (v2Run c5Input).status = 200 ∧
    (v2Run c5Input).streamed = ["page_1.png"] ∧
    (v2Run c5Input).streamed ≠ [] ∧
    (v2Run c5Input).completed = false := by
  decide

/-- C5 (amended): the handlers that gather every page before piping
(legacy, part_000, part_001) deliver either the complete artifact or no
artifact bytes at all; the v2 handler, which pipes the archive before the
jobs run, streams exactly the entries of the jobs fulfilled before the
first failure, so a failure after a successful append truncates the
response mid-archive. -/
theorem c5_no_partial_output :
    (∀ inp : LegacyInput, (legacyRun inp).completed = true ∨ (legacyRun inp).streamed = []) ∧
    (∀ inp : P0Input, (part000Run inp).completed = true ∨ (part000Run inp).streamed = []) ∧
    (∀ (files : List String) (format : Option String),
      (part001Post files format).completed = true ∨ (part001Post files format).streamed = []) ∧
    (∀ (inp : V2Input) (j : Nat) (msg : String), inp.hasFile = true → inp.loadError = none →
      1 < inp.pageCount → firstRejection inp.render inp.sched = some (j, msg) →
      (v2Run inp).completed = false ∧
      (v2Run inp).streamed = (inp.sched.takeWhile fun i => (inp.render i).isOk).map
        fun i => v2EntryName (v2Ext inp.format) (i + 1)) := by
  refine ⟨?_, ?_, ?_, ?_⟩
  · intro inp
    cases hf : inp.hasFile
    · simp [legacyRun, hf]
    · cases hl : inp.loadError with
      | some m => simp [legacyRun, hf, hl]
      | none =>
        cases hp : promiseAll inp.pageCount (legacyWorker inp.conv) inp.sched with
        | error x => obtain ⟨j, msg⟩ := x; simp [legacyRun, hf, hl, hp]
        | ok vs => simp [legacyRun, hf, hl, hp, apply_ite]
  · intro inp
    cases hf : inp.hasFile
    · simp [part000Run, hf]
    · cases hpg : inp.pages with
      | error m => simp [part000Run, hf, hpg]
      | ok bufs =>
        by_cases h0 : bufs.length = 0
        · simp [part000Run, hf, hpg, h0]
        · simp [part000Run, hf, hpg, h0, apply_ite]
  · intro files format
    by_cases h0 : (files.filter fun f => endsWithJs f ("." ++ safeFormatOf format)).length = 0
    · simp [part001Post, h0]
    · cases hs : sortPages (files.filter fun f => endsWithJs f ("." ++ safeFormatOf format)) with
      | error e => simp [part001Post, h0, hs]
      | ok sorted => simp [part001Post, h0, hs, apply_ite]
  · intro inp j msg hfile hload hmult hfr
    have h0 : ¬inp.pageCount = 0 := by omega
    constructor
    · simp [v2Run, hfile, hload, h0, promiseAll, hfr, hmult, apply_ite]
    · by_cases hemp : ((inp.sched.takeWhile fun i => (inp.render i).isOk).map
          fun i => v2EntryName (v2Ext inp.format) (i + 1)) = []
      · simp [v2Run, hfile, hload, h0, promiseAll, hfr, hmult, hemp]
      · simp [v2Run, hfile, hload, h0, promiseAll, hfr, hmult, hemp]

/-- C5 witness: the partial-output theorem instantiated at a v2 request
whose first settlement is the failure, so nothing is streamed. -/
theorem c5_no_partial_output_witness :
    (v2Run c5WitInput).completed = false ∧ (v2Run c5WitInput).streamed = [] := by
  have h := c5_no_partial_output.2.2.2 c5WitInput 0 "render failed" rfl rfl
    (by decide) (by decide)
  exact ⟨h.1, by rw [h.2]; decide⟩

/-! ## Claim C6: zero-page documents -/

/-- C6 counterexample: a zero-page document yields a 500 server error in
the v2 handler and a 200 success with an empty archive in the legacy
handler, never the claimed 400 validation error. -/
theorem c6_counterexample :
    (v2Run c6Input).status = 500 ∧
    (v2Run c6Input).errorDetails = some "PDF has no pages" ∧
    (v2Run c6Input).status ≠ 400 ∧
    (legacyRun c6LegacyInput).status = 200 ∧
    (legacyRun c6LegacyInput).completed = true ∧
    (legacyRun c6LegacyInput).status ≠ 400 := by
  decide

/-- C6 (amended): for every zero-page document, the v2 handler throws
PDF has no pages into its catch block and answers 500, and the legacy
handler runs zero page jobs and answers 200 with an empty finalized
archive; neither produces a 400 validation error. -/
theorem c6_zero_page_response :
    ∀ (a : V2Input) (b : LegacyInput),
      a.hasFile = true → a.loadError = none → a.pageCount = 0 →
      b.hasFile = true → b.loadError = none → b.pageCount = 0 → b.sched = [] →
      (v2Run a).status = 500 ∧ (v2Run a).errorDetails = some "PDF has no pages" ∧
      (v2Run a).status ≠ 400 ∧
      (legacyRun b).status = 200 ∧ (legacyRun b).completed = true ∧
      (legacyRun b).streamed = [] := by
  intro a b ha1 ha2 ha3 hb1 hb2 hb3 hb4
  have hv : v2Run a =
      { status := 500, errorDetails := some "PDF has no pages", streamed := [],
        completed := false, uploadDeleted := false, scratchRemoved := true } := by
    simp [v2Run, ha1, ha2, ha3]
  have hl : legacyRun b =
      { status := 200, errorDetails := none, streamed := [], completed := true,
        uploadDeleted := true, scratchRemoved := true } := by
    simp [legacyRun, hb1, hb2, hb3, hb4, promiseAll, firstRejection]
  rw [hv, hl]
  refine ⟨rfl, rfl, by decide, rfl, rfl, rfl⟩

/-- C6 witness: the zero-page theorem instantiated at the concrete
zero-page requests. -/
theorem c6_zero_page_response_witness :
    (v2Run c6Input).status = 500 ∧ (legacyRun c6LegacyInput).status = 200 := by
  have h := c6_zero_page_response c6Input c6LegacyInput rfl rfl rfl rfl rfl rfl rfl
  exact ⟨h.1, h.2.2.2.1⟩

/-- C7 witness: the uniqueness characterization instantiated at two
distinct requests sharing an arrival millisecond. -/
theorem c7_scratch_uniqueness_witness :
    part000OutputDir ⟨5, 1700⟩ = part000OutputDir ⟨7, 1700⟩ ∧
    legacyOutputDir ⟨5, 1700⟩ = legacyOutputDir ⟨7, 1700⟩ :=
  ⟨(c7_scratch_uniqueness ⟨5, 1700⟩ ⟨7, 1700⟩).1.mpr rfl,
   (c7_scratch_uniqueness ⟨5, 1700⟩ ⟨7, 1700⟩).2.mpr rfl⟩
